import Mathlib

/-!
Shallow embedding of the acquisition-pipeline bot (files `ki.py`, `bot.py`,
`kot.py`, `rc.py`, `rot.py`, `mkv.py`).  Python strings are modelled as Lean
`String` (a structure over `List Char`), byte counts and lengths as `Nat`,
wall-clock times and float arithmetic as `ℚ`, and fallible operations as
`Option`/`Except`.  Every definition is translated from the Python source;
the file and line numbers of the translated fragment are given next to each
definition.
-/

namespace Malu

/-- Characters of a string (`String` in Lean 4.14 is a structure holding
`data : List Char`). -/
def chars (s : String) : List Char := s.data

/-- Build a string back from a character list. -/
def ofChars (l : List Char) : String := ⟨l⟩

/-- Python `str.strip()` on a character list: drop whitespace from both
ends. -/
def pyStripL (l : List Char) : List Char :=
  ((l.dropWhile Char.isWhitespace).reverse.dropWhile Char.isWhitespace).reverse

/-- Python `str.strip()` on strings. -/
def pyStrip (s : String) : String := ofChars (pyStripL s.data)

/-- Python `str.startswith(pat)`: `pat.data` is a prefix of `s.data`. -/
def pyStartsWith (s pat : String) : Bool := List.isPrefixOf pat.data s.data

/-- Python `needle in hay` substring test on character lists. -/
def hasSubL (hay needle : List Char) : Bool :=
  match hay with
  | [] => needle.isEmpty
  | _ :: t => List.isPrefixOf needle hay || hasSubL t needle

/-- Python `needle in hay` substring test on strings. -/
def hasSub (hay needle : String) : Bool := hasSubL hay.data needle.data

/-- Python `s.split(",", maxsplit)`: split on commas performing at most
`fuel` splits, scanning left to right.  `acc` holds the characters of the
current field in reverse. -/
def splitCommaAux (fuel : Nat) (acc : List Char) : List Char → List (List Char)
  | [] => [acc.reverse]
  | c :: cs =>
    match fuel with
    | 0 => [acc.reverse ++ (c :: cs)]
    | fuel' + 1 =>
      if c = ',' then acc.reverse :: splitCommaAux fuel' [] cs
      else splitCommaAux (fuel' + 1) (c :: acc) cs

/-- Python `line.split(",", n)` on strings. -/
def pySplitComma (n : Nat) (s : String) : List String :=
  (splitCommaAux n [] s.data).map ofChars

/-- Python `re.split(r'[:|]', name)` (ki.py:50): split a character list on
every `:` or `|`. -/
def splitSepsAux (acc : List Char) : List Char → List (List Char)
  | [] => [acc.reverse]
  | c :: cs =>
    if c = ':' ∨ c = '|' then acc.reverse :: splitSepsAux [] cs
    else splitSepsAux (c :: acc) cs

-- ------------------------------------------------------------------
-- Title shortening (ki.py:41-59, `shorten_anime_name`)
-- ------------------------------------------------------------------

/-- Translation of `shorten_anime_name` (ki.py:41-59).  If the name fits in
`maxLength` characters it is returned unchanged; otherwise the name is
split on `:`/`|`, the first segment is stripped, and if that segment still
exceeds the bound it is cut to `maxLength - 3` characters with an `"..."`
appended (the Python slice `[:max_length - 3]` equals `List.take` for
`maxLength ≥ 3`, the only way it is called). -/
def shorten_anime_name (name : String) (maxLength : Nat) : String :=
  if name.length ≤ maxLength then name
  else
    let parts := splitSepsAux [] name.data
    let shortened := pyStripL (parts.headD [])
    if maxLength < shortened.length then
      ofChars (shortened.take (maxLength - 3) ++ "...".data)
    else ofChars shortened

-- ------------------------------------------------------------------
-- Subtitle sign-line filter (ki.py:173-250, `extract_sign_subtitles`)
-- ------------------------------------------------------------------

/-- Style keywords (ki.py:196). -/
def style_keywords : List String := ["BW Phone Bubble", "Text Date"]

/-- Effect/text keywords (ki.py:197). -/
def effect_text_keywords : List String := ["\\an", "\\fad", "\\pos", "\\fs"]

/-- Actor keyword (ki.py:198). -/
def actor_keyword : String := "Sign"

/-- Normalized Events format line injected by the extractor (ki.py:205). -/
def events_format_line : String :=
  "Format: Layer, Start, End, Style, Name, MarginL, MarginR, MarginV, Effect, Text"

/-- Keep decision for one dialogue cue, on the already-stripped `style`,
`name`, `effect` and `text` fields (ki.py:218-231): keep when the style
contains a style keyword, or when the effect or the text contains one of
the inline formatting tokens, or when the actor name contains `"Sign"`. -/
def keepCue (style name effect text : String) : Bool :=
  (style_keywords.any fun kw => hasSub style kw) ||
  (effect_text_keywords.any fun kw => hasSub effect kw || hasSub text kw) ||
  hasSub name actor_keyword

/-- Mutable state of the line loop of `extract_sign_subtitles`
(ki.py:191-193): whether we are inside the `[Events]` section, the
collected header lines, and the collected sign dialogue lines. -/
structure AssState where
  inEvents : Bool
  header : List String
  sign : List String
deriving DecidableEq

/-- One iteration of the loop over the subtitle file lines
(ki.py:200-237).  The raw line is stripped first; `[Events]` opens the
events section and injects the normalized format line; a dialogue line
inside the events section is split on at most 9 commas, silently skipped
when it has fewer than 10 fields, and otherwise kept or dropped by
`keepCue` on its stripped 4th, 5th, 9th and 10th fields; any other
bracketed line closes the events section and goes to the header; remaining
lines go to the header only outside the events section. -/
def lineStep (st : AssState) (raw : String) : AssState :=
  let line := pyStrip raw
  if pyStartsWith line "[Events]" then
    { st with inEvents := true, header := st.header ++ [line, events_format_line] }
  else if st.inEvents && pyStartsWith line "Dialogue:" then
    let parts := pySplitComma 9 line
    if parts.length < 10 then st
    else
      let style := pyStrip (parts.getD 3 "")
      let name := pyStrip (parts.getD 4 "")
      let effect := pyStrip (parts.getD 8 "")
      let text := pyStrip (parts.getD 9 "")
      if keepCue style name effect text then { st with sign := st.sign ++ [line] }
      else st
  else if pyStartsWith line "[" then
    { st with inEvents := false, header := st.header ++ [line] }
  else if !st.inEvents then
    { st with header := st.header ++ [line] }
  else st

/-- Run the filter loop over all lines of the extracted `.ass` file
(ki.py:200-237), starting outside the events section with empty
accumulators. -/
def runLines (lines : List String) : AssState :=
  lines.foldl lineStep ⟨false, [], []⟩

/-- Content written back to the subtitle file (ki.py:239-243): the header
joined by newlines, followed by the sign lines only when some exist. -/
def rebuiltContent (lines : List String) : String :=
  let st := runLines lines
  String.intercalate "\n" st.header ++
    (if st.sign = [] then "" else "\n" ++ String.intercalate "\n" st.sign)

/-- Merge gate used by `download_anime` (ki.py:413-420): the filtered track
is merged into the container exactly when the rebuilt subtitle file has
positive size (`os.path.getsize(sign_sub_file) > 0`). -/
def mergePerformed (lines : List String) : Bool :=
  decide (0 < (rebuiltContent lines).utf8ByteSize)

/-- Concrete extracted subtitle file: a realistic header and a single plain
dialogue cue that matches none of the three keep predicates. -/
def plainAssLines : List String :=
  ["[Script Info]",
   "Title: Example",
   "",
   "[Events]",
   "Format: Layer, Start, End, Style, Name, MarginL, MarginR, MarginV, Effect, Text",
   "Dialogue: 0,0:00:00.00,0:00:05.00,Default,,0,0,0,,Hello there"]

-- ------------------------------------------------------------------
-- Task queue / scheduler (ki.py:35-37, 286-301, 470-474)
-- ------------------------------------------------------------------

/-- State of one spawned `process_queue` coroutine (ki.py:286-301): it is
either at the top of its loop, about to take the queue lock (`idle`), or
awaiting `current_task()` for the task it popped (`running t`). -/
inductive DrainSt where
  | idle : DrainSt
  | running : Nat → DrainSt
deriving DecidableEq

/-- Global scheduler state (ki.py:35-38): the pending deque `task_queue`,
the global `current_task` variable, and the list of live `process_queue`
coroutines.  Tasks are identified by submission index; `submitted` and
`completed` record submission and completion order.  Transitions below are
the atomic regions of the source: code between two `await` points of the
single-threaded event loop runs without interleaving, so each lock-guarded
block fused with its surrounding await-free code is one step. -/
structure QState where
  pending : List Nat
  drains : List DrainSt
  current : Option Nat
  completed : List Nat
  submitted : List Nat
deriving DecidableEq

/-- Initial state: empty queue, no coroutine, `current_task = None`. -/
def qInit : QState := ⟨[], [], none, [], []⟩

/-- Submission step (ki.py:470-474): under the lock, append the task and,
if `current_task` is falsy (`None`), schedule a new `process_queue`
coroutine with `asyncio.create_task`.  The new coroutine does not run yet;
it is merely added in the `idle` state. -/
def download_anime_submit (s : QState) : QState :=
  let id := s.submitted.length
  { s with
    pending := s.pending ++ [id]
    submitted := s.submitted ++ [id]
    drains := if s.current = none then s.drains ++ [DrainSt.idle] else s.drains }

/-- First loop iteration of drain coroutine `i` once the event loop runs it
(ki.py:289-294): under the lock, if the queue is empty clear
`current_task` and exit the loop (the coroutine ends), otherwise pop the
head into `current_task` and start awaiting it. -/
def process_queue_iter (i : Nat) (s : QState) : QState :=
  match s.drains.getD i DrainSt.idle, s.drains.get? i with
  | DrainSt.idle, some _ =>
    match s.pending with
    | [] => { s with current := none, drains := s.drains.eraseIdx i }
    | t :: rest =>
      { s with current := some t, pending := rest, drains := s.drains.set i (DrainSt.running t) }
  | _, _ => s

/-- Completion of the task awaited by drain coroutine `i` (ki.py:296-301
fused with the next loop iteration, ki.py:289-294, since no `await`
separates them): record completion, run `finally: current_task = None`,
then under the lock either exit on an empty queue or pop the next task. -/
def process_queue_after_task (i : Nat) (s : QState) : QState :=
  match s.drains.get? i with
  | some (DrainSt.running t) =>
    let s1 := { s with completed := s.completed ++ [t], current := none }
    match s1.pending with
    | [] => { s1 with drains := s1.drains.eraseIdx i }
    | u :: rest =>
      { s1 with current := some u, pending := rest, drains := s1.drains.set i (DrainSt.running u) }
  | _ => s

/-- Number of tasks simultaneously in the running state. -/
def runningCount (s : QState) : Nat :=
  (s.drains.filter fun d => match d with | DrainSt.running _ => true | _ => false).length

/-- Number of live drain loops. -/
def drainCount (s : QState) : Nat := s.drains.length

/-- Racy schedule: two `/download` submissions dispatched before the first
spawned `process_queue` coroutine gets to run, then both coroutines pop a
task, then the second task finishes before the first. -/
def raceState2 : QState := download_anime_submit (download_anime_submit qInit)

/-- Both drain coroutines have popped a task. -/
def raceState4 : QState := process_queue_iter 1 (process_queue_iter 0 raceState2)

/-- Both tasks have completed, the second one first. -/
def raceState6 : QState :=
  process_queue_after_task 0 (process_queue_after_task 1 raceState4)

-- ------------------------------------------------------------------
-- Progress throttle (ki.py:38, 322-348, `progress`)
-- ------------------------------------------------------------------

/-- Events seen by the throttle during the life of the process.  A
`sample now nm` is one invocation of the `progress` callback at wall-clock
time `now`; `nm = true` models `message.edit_text` raising
`MessageNotModified` (ki.py:347-348), in which case nothing is displayed
and `last_update_time` is not assigned.  `startTransfer` is the start of a
new upload (ki.py:441): the code there assigns only the local
`start_time`; the global `last_update_time` is untouched. -/
inductive PEvent where
  | sample : ℚ → Bool → PEvent
  | startTransfer : PEvent

/-- Run the throttle (ki.py:324-346) over an event list from gate state
`last` (the global `last_update_time`), returning the wall-clock times of
the successfully displayed status texts.  A sample emits exactly when
`now - last ≥ 2`; a successful emission assigns `last_update_time :=
now`; a `MessageNotModified` rejection leaves it unchanged; a transfer
start changes nothing. -/
def runEvents (last : ℚ) : List PEvent → List ℚ
  | [] => []
  | PEvent.startTransfer :: es => runEvents last es
  | PEvent.sample now nm :: es =>
    if 2 ≤ now - last then
      if nm then runEvents last es else now :: runEvents now es
    else runEvents last es

-- ------------------------------------------------------------------
-- Progress arithmetic (ki.py:325-345)
-- ------------------------------------------------------------------

/-- Python float division: raises `ZeroDivisionError` on divisor 0,
modelled as `none`. -/
def pyDiv (a b : ℚ) : Option ℚ := if b = 0 then none else some (a / b)

/-- Python `int()` of a float: truncation toward zero. -/
def pyInt (q : ℚ) : ℤ := if 0 ≤ q then ⌊q⌋ else -⌊-q⌋

/-- Arithmetic of the `progress` callback (ki.py:328-334) on one sample:
speed is `current / elapsed` only when `elapsed > 0` and 0 otherwise, ETA
is `(total - current) / speed` only when `speed > 0` and 0 otherwise, the
percentage is `(current / total) * 100` with no guard, and the bar block
count is `int(20 * current / total)` with no guard.  Returns
`(speed, eta, percentage, blocks)`, or `none` when a division by zero is
hit. -/
def progressStats (current total elapsed : ℚ) : Option (ℚ × ℚ × ℚ × ℤ) :=
  (if 0 < elapsed then pyDiv current elapsed else some 0).bind fun speed =>
  (if 0 < speed then pyDiv (total - current) speed else some 0).bind fun eta =>
  (pyDiv current total).bind fun frac =>
  (pyDiv (20 * current) total).bind fun blocks =>
  some (speed, eta, frac * 100, pyInt blocks)

-- ------------------------------------------------------------------
-- Upload size gate (ki.py:436-439)
-- ------------------------------------------------------------------

/-- Size gate of `download_anime` (ki.py:437): the upload is aborted when
`file_size > 2 * 1024 ** 3`. -/
def sizeLimitExceeded (file_size : Nat) : Bool := decide (2 * 1024 ^ 3 < file_size)

/-- Delivery is attempted (`client.send_document`, ki.py:442) exactly when
the size gate did not trigger the early return. -/
def deliveryAttempted (file_size : Nat) : Bool := !sizeLimitExceeded file_size

-- ------------------------------------------------------------------
-- Notification sink adapter (ki.py:350-359, kot.py:232-242, rc.py:93-102,
-- rot.py:167-176, bot.py:85-92, `safe_edit_message`)
-- ------------------------------------------------------------------

/-- Guarded `safe_edit_message` of ki.py:350-359, kot.py:232-242,
rc.py:93-102 and rot.py:167-176: when the new text equals the message's
current text, return without any network call; otherwise call
`edit_text`, and on a `FloodWait` (modelled by `floodFirst`) sleep and
call it once more.  The result lists the `edit_text` network calls
performed. -/
def safe_edit_message_guarded (message_text text : String) (floodFirst : Bool) :
    List String :=
  if message_text == text then []
  else if floodFirst then [text, text] else [text]

/-- `safe_edit_message` of bot.py:85-92: identical to the guarded variant
except that it performs no comparison with the message's current text and
always calls `edit_text`. -/
def safe_edit_message_bot (_message_text text : String) (floodFirst : Bool) :
    List String :=
  if floodFirst then [text, text] else [text]

-- ------------------------------------------------------------------
-- Metadata enricher (ki.py:61-106, `auto_rename_with_anitopy`)
-- ------------------------------------------------------------------

/-- Python `os.path.basename` for POSIX paths: the part after the last
slash. -/
def pyBasenameL (l : List Char) : List Char :=
  ((l.reverse.takeWhile fun c => c ≠ '/').reverse)

/-- Python `os.path.dirname` for POSIX paths: everything up to the last
slash, with trailing slashes removed unless the head is all slashes. -/
def pyDirnameL (l : List Char) : List Char :=
  let head := (l.reverse.dropWhile fun c => c ≠ '/').reverse
  if head.all fun c => c = '/' then head
  else (head.reverse.dropWhile fun c => c = '/').reverse

/-- Python `os.path.join(a, b)` for the shapes used here: `b` when `a` is
empty or `b` is absolute, otherwise `a ++ "/" ++ b` with no doubled
slash. -/
def pyJoin (a b : String) : String :=
  if b.data.headD ' ' = '/' then b
  else if h : a.data = [] then b
  else if a.data.getLast h = '/' then a ++ b
  else a ++ "/" ++ b

/-- Python `os.path.splitext(p)[0]`: drop the extension at the last dot of
the final path component, ignoring leading dots of that component. -/
def pySplitextBase (s : String) : String :=
  let base := pyBasenameL s.data
  let stem := base.dropWhile fun c => c = '.'
  if (stem.filter fun c => c = '.').length = 0 then s
  else ofChars ((s.data.reverse.dropWhile fun c => c ≠ '.').reverse.dropLast)

/-- Match `\d+p]` at the position right after a `[` (the regex
`\[(\d+p)\]` of ki.py:76), returning the captured group `\d+p`. -/
def matchResAt (cs : List Char) : Option (List Char) :=
  let ds := cs.takeWhile Char.isDigit
  if ds.isEmpty then none
  else
    match cs.drop ds.length with
    | 'p' :: ']' :: _ => some (ds ++ ['p'])
    | _ => none

/-- Leftmost search of `re.search(r"\[(\d+p)\]", filename)` (ki.py:76). -/
def findResolution : List Char → Option (List Char)
  | [] => none
  | '[' :: cs =>
    match matchResAt cs with
    | some r => some r
    | none => findResolution cs
  | _ :: cs => findResolution cs

/-- Oracles for the effectful calls made by `auto_rename_with_anitopy`.
`extractResult` is the value of `extract_anime_info` (ki.py:108-136) — an
external-library (`anitopy`) parse wrapped so that it catches its own
exceptions and yields `None, None, None` (modelled `none`) when no title
is found.  `renameFails` models `os.rename` (ki.py:85) raising.
`fetchCover` is `fetch_anilist_cover` (ki.py:138-158), which returns the
cover URL, or `none` when not found or after exhausting its retries, and
can itself raise outside its `RequestException` handler (for example in
`response.json()`), modelled as `Except.error`.  `downloadOk` is the
boolean result of `download_cover_image` (ki.py:160-170), which catches
all of its exceptions. -/
structure EnrichWorld where
  extractResult : Option (String × String × String)
  renameFails : Bool
  fetchCover : String → Except Unit (Option String)
  downloadOk : Bool

/-- Python `re.sub(r'[-:]', ' ', title)` (ki.py:91). -/
def fallbackNormalize (title : String) : String :=
  pyStrip (ofChars (title.data.map fun c => if c = '-' ∨ c = ':' then ' ' else c))

/-- Body of the `try` block of `auto_rename_with_anitopy` (ki.py:63-102):
parse the filename, bail out unchanged when no title was found, build the
service prefix and the new name, rename, fetch the cover with one
normalized fallback, and download the thumbnail; any raised exception is
`Except.error`. -/
def autoRenameBody (w : EnrichWorld) (file_path service : String) :
    Except Unit (String × Option String × Option String) :=
  let filename := ofChars (pyBasenameL file_path.data)
  match w.extractResult with
  | none => Except.ok (file_path, none, none)
  | some (anime_title, season, episode) =>
    let pfx := if service.toLower = "hidive" then "[HD]" else "[CR]"
    let resolution :=
      match findResolution filename.data with
      | some r => ofChars r
      | none => "1080p"
    let shortened_title := shorten_anime_name anime_title 25
    let output_name :=
      pfx ++ " " ++ shortened_title ++ " - S" ++ season ++ "E" ++ episode ++
        " [" ++ resolution ++ "].mkv"
    let new_file_path := pyJoin (ofChars (pyDirnameL file_path.data)) output_name
    if w.renameFails then Except.error ()
    else
      (w.fetchCover anime_title).bind fun cover1 =>
      (match cover1 with
       | some u => Except.ok (some u)
       | none => w.fetchCover (fallbackNormalize anime_title)).bind fun cover =>
      match cover with
      | none => Except.ok (new_file_path, none, some shortened_title)
      | some _ =>
        let thumbnail_path := pySplitextBase new_file_path ++ "_cover.jpg"
        if w.downloadOk then
          Except.ok (new_file_path, some thumbnail_path, some shortened_title)
        else Except.ok (new_file_path, none, some shortened_title)

/-- Whether an `Except` computation finished without raising. -/
def exceptOk {ε α : Type} : Except ε α → Bool
  | Except.ok _ => true
  | Except.error _ => false

/-- Translation of `auto_rename_with_anitopy` (ki.py:61-106): run the body
and catch every exception, degrading to the unchanged input path with no
thumbnail and no title (ki.py:104-106). -/
def auto_rename_with_anitopy (w : EnrichWorld) (file_path service : String) :
    String × Option String × Option String :=
  match autoRenameBody w file_path service with
  | Except.ok r => r
  | Except.error _ => (file_path, none, none)

-- ------------------------------------------------------------------
-- Helper lemmas
-- ------------------------------------------------------------------

/-- Two patterns with distinct head characters cannot both be prefixes of
the same list. -/
theorem isPrefixOf_false_of_head_ne {c1 c2 : Char} {t1 t2 l : List Char}
    (hne : c1 ≠ c2) (h : List.isPrefixOf (c1 :: t1) l = true) :
    List.isPrefixOf (c2 :: t2) l = false := by
  cases l with
  | nil => simp [List.isPrefixOf] at h
  | cons d ds =>
    have hd : c1 = d := by
      simp only [List.isPrefixOf, Bool.and_eq_true, beq_iff_eq] at h
      exact h.1
    subst hd
    have hfalse : (c2 == c1) = false := beq_eq_false_iff_ne.mpr (Ne.symm hne)
    simp [List.isPrefixOf, hfalse]

/-- Splitting a separator-free character list returns a single segment. -/
theorem splitSepsAux_no_sep (acc : List Char) (cs : List Char)
    (h : ∀ c ∈ cs, ¬(c = ':' ∨ c = '|')) :
    splitSepsAux acc cs = [acc.reverse ++ cs] := by
  induction cs generalizing acc with
  | nil => simp [splitSepsAux]
  | cons c cs ih =>
    have hc : ¬(c = ':' ∨ c = '|') := h c (List.mem_cons_self c cs)
    rw [splitSepsAux, if_neg hc, ih (c :: acc) fun d hd => h d (List.mem_cons_of_mem c hd)]
    simp

-- ------------------------------------------------------------------
-- Claim theorems
-- ------------------------------------------------------------------

/-- Claim C5: for every well-formed dialogue cue, the subtitle filter keeps
a cue with style `"Text Date"`, keeps a cue whose effect or text field
contains `\pos`, keeps a cue with actor name `"Sign - Narrator"`, and
drops a plain dialogue cue matching none of the three predicates. -/
theorem subtitle_filter_cases :
    (∀ n e t : String, keepCue "Text Date" n e t = true) ∧
    (∀ s n e t : String, (hasSub e "\\pos" || hasSub t "\\pos") = true →
      keepCue s n e t = true) ∧
    (∀ s e t : String, keepCue s "Sign - Narrator" e t = true) ∧
    keepCue "Default" "" "" "Hello there" = false := by
  refine ⟨?_, ?_, ?_, by decide⟩
  · intro n e t
    have h1 : (style_keywords.any fun kw => hasSub "Text Date" kw) = true := by decide
    simp [keepCue, h1]
  · intro s n e t h
    have hmem : "\\pos" ∈ effect_text_keywords := by decide
    have h2 : (effect_text_keywords.any fun kw => hasSub e kw || hasSub t kw) = true :=
      List.any_eq_true.mpr ⟨"\\pos", hmem, h⟩
    simp [keepCue, h2]
  · intro s e t
    have h3 : hasSub "Sign - Narrator" actor_keyword = true := by decide
    simp [keepCue, h3]

/-- Witness for C5 at concrete fields: a dialogue cue whose effect field
contains `\pos` is kept. -/
theorem subtitle_filter_cases_witness :
    (hasSub "\\pos(600,50)" "\\pos" || hasSub "hi" "\\pos") = true ∧
    keepCue "Default" "x" "\\pos(600,50)" "hi" = true :=
  ⟨by decide, subtitle_filter_cases.2.1 "Default" "x" "\\pos(600,50)" "hi" (by decide)⟩

/-- Claim C10: a dialogue line inside the events section that splits into
fewer than 10 comma-separated fields is silently dropped: the loop state
is unchanged, so the line reaches neither the header nor the sign-line
output, regardless of its content. -/
theorem dialogue_short_line_dropped (st : AssState) (line : String)
    (h1 : st.inEvents = true)
    (h2 : pyStartsWith (pyStrip line) "Dialogue:" = true)
    (h3 : (pySplitComma 9 (pyStrip line)).length < 10) :
    lineStep st line = st := by
  have hnot : pyStartsWith (pyStrip line) "[Events]" = false := by
    have hD : "Dialogue:".data = 'D' :: "ialogue:".data := rfl
    have hE : "[Events]".data = '[' :: "Events]".data := rfl
    unfold pyStartsWith at h2 ⊢
    rw [hE]
    rw [hD] at h2
    exact isPrefixOf_false_of_head_ne (by decide) h2
  unfold lineStep
  simp only [hnot, Bool.false_eq_true, if_false, h1, h2, Bool.and_self, if_true, if_pos h3]

/-- Witness for C10: a six-field dialogue line whose style field is the
keyword `"Text Date"` and whose actor field contains `"Sign"` is still
dropped. -/
theorem dialogue_short_line_dropped_witness :
    (⟨true, [], []⟩ : AssState).inEvents = true ∧
    pyStartsWith (pyStrip "Dialogue: 0,0:00:00.00,0:00:01.00,Text Date,Sign,0") "Dialogue:" = true ∧
    (pySplitComma 9 (pyStrip "Dialogue: 0,0:00:00.00,0:00:01.00,Text Date,Sign,0")).length < 10 ∧
    lineStep ⟨true, [], []⟩ "Dialogue: 0,0:00:00.00,0:00:01.00,Text Date,Sign,0" = ⟨true, [], []⟩ :=
  ⟨rfl, by decide, by decide,
   dialogue_short_line_dropped ⟨true, [], []⟩ _ rfl (by decide) (by decide)⟩

set_option maxRecDepth 100000 in
/-- Claim C4 (code bug): on a realistic extracted subtitle file whose only
dialogue cue fails every keep predicate, the filtered cue set is empty,
yet the rebuilt file still holds the header, so its size is positive and
the `os.path.getsize(sign_sub_file) > 0` gate of `download_anime`
(ki.py:414) proceeds to merge the empty track instead of discarding it. -/
theorem extract_sign_empty_filter_still_merges :
    (runLines plainAssLines).sign = [] ∧ mergePerformed plainAssLines = true := by
  constructor
  · decide
  · decide

/-- Claim C6: the size gate rejects a file of exactly `2 * 1024 ^ 3 + 1`
bytes before any transfer begins, accepts a file of exactly
`2 * 1024 ^ 3` bytes, and for every file delivery is attempted if and
only if the size is at most 2 GiB. -/
theorem size_gate_spec :
    sizeLimitExceeded (2 * 1024 ^ 3 + 1) = true ∧
    sizeLimitExceeded (2 * 1024 ^ 3) = false ∧
    ∀ n : Nat, deliveryAttempted n = decide (n ≤ 2 * 1024 ^ 3) := by
  refine ⟨by decide, by decide, ?_⟩
  intro n
  by_cases h : n ≤ 2 * 1024 ^ 3
  · have h1 : sizeLimitExceeded n = false := by
      simp only [sizeLimitExceeded, decide_eq_false_iff_not]
      omega
    simp only [deliveryAttempted, h1, Bool.not_false, true_eq_decide_iff]
    omega
  · have h1 : sizeLimitExceeded n = true := by
      simp only [sizeLimitExceeded, decide_eq_true_eq]
      omega
    simp only [deliveryAttempted, h1, Bool.not_true, false_eq_decide_iff]
    omega

/-- Claim C9 counterexample: in the bot.py variant of the adapter, sending
a text identical to the message's current text still performs a network
call (`edit_text`), so the claim that every variant skips identical text
is false. -/
theorem safe_edit_bot_counterexample :
    safe_edit_message_bot "done" "done" false = ["done"] := rfl

/-- Claim C9 as amended: the ki.py, kot.py, rc.py and rot.py variants of
`safe_edit_message` make no network call when the text equals the
channel's last-known displayed text, while the bot.py variant always
performs the edit call. -/
theorem safe_edit_idempotent_amended :
    ∀ (t : String) (f : Bool),
      safe_edit_message_guarded t t f = [] ∧ safe_edit_message_bot t t f ≠ [] := by
  intro t f
  constructor
  · simp [safe_edit_message_guarded]
  · cases f <;> simp [safe_edit_message_bot]

/-- Claim C7 counterexample: the 40-character single-segment title made of
`"abcdefgh"` surrounded by 16 spaces on each side contains no colon or
pipe, yet shortening with bound 25 returns the stripped 8-character title
`"abcdefgh"`, not a 25-character string ending in `"..."`. -/
theorem shorten_forty_char_counterexample :
    ("                abcdefgh                " : String).length = 40 ∧
    ("                abcdefgh                " : String).data.count ':' = 0 ∧
    ("                abcdefgh                " : String).data.count '|' = 0 ∧
    shorten_anime_name "                abcdefgh                " 25 = "abcdefgh" ∧
    (shorten_anime_name "                abcdefgh                " 25).length ≠ 25 := by
  refine ⟨by decide, by decide, by decide, by decide, by decide⟩

/-- Claim C7 as amended: shortening `"Attack on Titan: Final Season"` with
bound 25 yields `"Attack on Titan"`; a title of at most 25 characters is
returned unchanged; and a 40-character title without colon or pipe whose
whitespace-stripped form still exceeds 25 characters yields exactly 25
characters ending in `"..."`. -/
theorem shorten_spec_amended :
    shorten_anime_name "Attack on Titan: Final Season" 25 = "Attack on Titan" ∧
    (∀ s : String, s.length ≤ 25 → shorten_anime_name s 25 = s) ∧
    (∀ s : String, s.length = 40 → s.data.count ':' = 0 → s.data.count '|' = 0 →
      25 < (pyStripL s.data).length →
      (shorten_anime_name s 25).length = 25 ∧
      (shorten_anime_name s 25).data.drop 22 = "...".data) := by
  refine ⟨by decide, ?_, ?_⟩
  · intro s hle
    simp [shorten_anime_name, hle]
  · intro s h40 hc hp hlen
    have hnosep : ∀ c ∈ s.data, ¬(c = ':' ∨ c = '|') := by
      intro c hcmem hor
      cases hor with
      | inl h => exact absurd hcmem (h ▸ List.count_eq_zero.mp hc)
      | inr h => exact absurd hcmem (h ▸ List.count_eq_zero.mp hp)
    have hsplit : splitSepsAux [] s.data = [s.data] := by
      simpa using splitSepsAux_no_sep [] s.data hnosep
    have hgt : ¬ s.length ≤ 25 := by omega
    have hres : shorten_anime_name s 25 =
        ofChars ((pyStripL s.data).take 22 ++ "...".data) := by
      rw [shorten_anime_name, if_neg hgt]
      simp only [hsplit, List.headD, if_pos hlen]
    have htake : ((pyStripL s.data).take 22).length = 22 := by
      rw [List.length_take]
      omega
    constructor
    · rw [hres]
      show ((pyStripL s.data).take 22 ++ "...".data).length = 25
      rw [List.length_append, htake]
      rfl
    · rw [hres]
      show ((pyStripL s.data).take 22 ++ "...".data).drop 22 = "...".data
      have hdrop := List.drop_left ((pyStripL s.data).take 22) "...".data
      rw [htake] at hdrop
      exact hdrop

/-- Witness for C7 at a concrete 40-character separator-free title. -/
theorem shorten_spec_amended_witness :
    ("aaaaaaaaaaaaaaaaaaaaaaaaaaaaaaaaaaaaaaaa" : String).length = 40 ∧
    (shorten_anime_name "aaaaaaaaaaaaaaaaaaaaaaaaaaaaaaaaaaaaaaaa" 25).length = 25 ∧
    (shorten_anime_name "aaaaaaaaaaaaaaaaaaaaaaaaaaaaaaaaaaaaaaaa" 25).data.drop 22 = "...".data :=
  ⟨by decide,
   (shorten_spec_amended.2.2 "aaaaaaaaaaaaaaaaaaaaaaaaaaaaaaaaaaaaaaaa"
     (by decide) (by decide) (by decide) (by decide)).1,
   (shorten_spec_amended.2.2 "aaaaaaaaaaaaaaaaaaaaaaaaaaaaaaaaaaaaaaaa"
     (by decide) (by decide) (by decide) (by decide)).2⟩

/-- Claim C1 (code bug): with two submissions dispatched before the first
spawned `process_queue` coroutine runs, the `if not current_task` guard
(ki.py:473) sees `current_task = None` twice and schedules two drain
loops; both then pop a task, so two tasks are running at the same instant,
and the completion order `[1, 0]` inverts the submission order `[0, 1]`. -/
theorem process_queue_race :
    drainCount raceState2 = 2 ∧
    runningCount raceState4 = 2 ∧
    raceState6.submitted = [0, 1] ∧
    raceState6.completed = [1, 0] := by
  refine ⟨by decide, by decide, by decide, by decide⟩

/-- Every time the throttle emits, the emission is at least 2 seconds after
the gate value it started from, and consecutive emissions are at least 2
seconds apart. -/
theorem runEvents_bounds (es : List PEvent) : ∀ last : ℚ,
    (∀ x ∈ runEvents last es, last + 2 ≤ x) ∧
    List.Chain' (fun a b => a + 2 ≤ b) (runEvents last es) := by
  induction es with
  | nil => intro last; simp [runEvents]
  | cons e es ih =>
    intro last
    cases e with
    | startTransfer => simpa only [runEvents] using ih last
    | sample now nm =>
      by_cases h : 2 ≤ now - last
      · cases nm with
        | true => simpa only [runEvents, if_pos h, if_true] using ih last
        | false =>
          simp only [runEvents, if_pos h, Bool.false_eq_true, if_false]
          constructor
          · intro x hx
            rcases List.mem_cons.mp hx with hx | hx
            · subst hx; linarith
            · have := (ih now).1 x hx
              linarith
          · rw [List.chain'_cons']
            refine ⟨?_, (ih now).2⟩
            intro b hb
            have hbmem : b ∈ runEvents now es := List.mem_of_mem_head? hb
            have := (ih now).1 b hbmem
            linarith
      · simpa only [runEvents, if_neg h] using ih last

/-- Claim C2 counterexample: two event traces whose portions after the
transfer start are identical (`startTransfer` followed by a sample at
time 11.5) nevertheless decide the first sample of the new transfer
differently — it is suppressed when the previous transfer last emitted at
time 10 and emitted when it last emitted at time 5.  The first sample of a
new transfer is therefore judged against the previous transfer's gate
value, which is never reset at the start of a transfer. -/
theorem progress_gate_not_reset_counterexample :
    runEvents 0 [PEvent.sample 10 false, PEvent.startTransfer,
      PEvent.sample (23 / 2) false] = [10] ∧
    runEvents 0 [PEvent.sample 5 false, PEvent.startTransfer,
      PEvent.sample (23 / 2) false] = [5, 23 / 2] := by
  constructor
  · norm_num [runEvents]
  · norm_num [runEvents]

/-- Claim C2 as amended: the throttle never displays two status texts
separated by less than the 2-second minimum interval — within a transfer
and even across transfer boundaries, because the gate `last_update_time`
is a process-wide variable that a transfer start leaves untouched rather
than resetting. -/
theorem progress_gate_min_interval :
    ∀ (last : ℚ) (es : List PEvent),
      List.Chain' (fun a b => a + 2 ≤ b) (runEvents last es) :=
  fun last es => (runEvents_bounds es last).2

/-- Claim C8 counterexample: a progress sample with total = 0 reaches the
unguarded percentage computation `(current / total) * 100` (ki.py:331)
and raises `ZeroDivisionError`, modelled as `none`. -/
theorem progress_stats_total_zero_counterexample :
    progressStats 0 0 1 = none := by norm_num [progressStats, pyDiv]

/-- Claim C8 as amended: for every progress sample whose total is nonzero,
the computation performs no division by zero — speed is 0 when
elapsed ≤ 0 and ETA is 0 when speed is 0 — while a total of 0 reaches an
unguarded division. -/
theorem progress_stats_safe_amended :
    ∀ current total elapsed : ℚ, total ≠ 0 →
      ∃ speed eta pct blocks,
        progressStats current total elapsed = some (speed, eta, pct, blocks) ∧
        (elapsed ≤ 0 → speed = 0) ∧ (speed = 0 → eta = 0) := by
  intro c t e ht
  by_cases he : 0 < e
  · by_cases hs : 0 < c / e
    · refine ⟨c / e, (t - c) / (c / e), c / t * 100, pyInt (20 * c / t), ?_, ?_, ?_⟩
      · simp [progressStats, pyDiv, he, hs, ne_of_gt he, ne_of_gt hs, ht]
      · intro hle; linarith
      · intro h0; exact absurd (h0 ▸ hs) (lt_irrefl 0)
    · refine ⟨c / e, 0, c / t * 100, pyInt (20 * c / t), ?_, ?_, fun _ => rfl⟩
      · simp [progressStats, pyDiv, he, hs, ne_of_gt he, ht]
      · intro hle; linarith
  · refine ⟨0, 0, c / t * 100, pyInt (20 * c / t), ?_, fun _ => rfl, fun _ => rfl⟩
    simp [progressStats, pyDiv, he, ht]

/-- Witness for C8 at the concrete sample current = 5, total = 10,
elapsed = 2. -/
theorem progress_stats_safe_amended_witness :
    ((10 : ℚ) ≠ 0) ∧
    ∃ speed eta pct blocks,
      progressStats 5 10 2 = some (speed, eta, pct, blocks) ∧
      ((2 : ℚ) ≤ 0 → speed = 0) ∧ (speed = 0 → eta = 0) :=
  ⟨by norm_num, progress_stats_safe_amended 5 10 2 (by norm_num)⟩

/-- Claim C3: the enrichment operation never raises to its caller (its
result type is a plain triple); when no title can be parsed from the
filename, or when any internal step raises, it returns the input path
unchanged with no thumbnail and no title. -/
theorem auto_rename_never_fails :
    ∀ (w : EnrichWorld) (p s : String),
      (w.extractResult = none ∨ exceptOk (autoRenameBody w p s) = false) →
      auto_rename_with_anitopy w p s = (p, none, none) := by
  intro w p s h
  cases h with
  | inl hnone =>
    simp [auto_rename_with_anitopy, autoRenameBody, hnone]
  | inr herr =>
    unfold auto_rename_with_anitopy
    cases hb : autoRenameBody w p s with
    | ok r =>
      rw [hb] at herr
      simp [exceptOk] at herr
    | error e => rfl

/-- Witness for C3: a parse that finds no title leaves the path unchanged,
and a failing rename is caught and likewise leaves the path unchanged. -/
theorem auto_rename_never_fails_witness :
    ((⟨none, false, fun _ => Except.ok none, false⟩ : EnrichWorld).extractResult = none ∨
      exceptOk (autoRenameBody ⟨none, false, fun _ => Except.ok none, false⟩
        "vid/a.mkv" "crunchy") = false) ∧
    auto_rename_with_anitopy ⟨none, false, fun _ => Except.ok none, false⟩
      "vid/a.mkv" "crunchy" = ("vid/a.mkv", none, none) :=
  ⟨Or.inl rfl,
   auto_rename_never_fails ⟨none, false, fun _ => Except.ok none, false⟩
     "vid/a.mkv" "crunchy" (Or.inl rfl)⟩

end Malu
